import Mathlib

/-!
Verification development for the go-videoconf signalling relay service.

The definitions below are a shallow embedding of the Go sources of the
repository:

* `Message`, `Connection` data: server/signalling-server/interfaces/connection.interfaces.go
* the websocket relay handler `wshandler`: server/signalling-server/main.go
* the session/socket controllers `CreateSession`, `CreateSocket`,
  `ConnectSession`, `GetSession`, `hashSession`:
  server/src/controllers/socket.controllers.go and the signalling-server
  controllers file.

Go maps are embedded as association lists with key-unique insertion;
store-assigned object ids are embedded as a fresh-id counter; send/write
failures of a websocket connection are embedded as an explicit set of broken
connection ids supplied with each processed message.
-/

namespace VideoConf

/-- Wire message record, from `interfaces.Message`
(fields `Type`, `UserID`, `Description`, `Candidate`, `To`).
The Go fields `Type` and `To` are called `mtype` and `toUser` here because
`Type` and `to` are reserved in Lean. -/
structure Message where
  mtype : String
  userID : String
  description : String
  candidate : String
  toUser : String
deriving DecidableEq

/-- Abstract identifier of one physical websocket connection. -/
abbrev ConnId := Nat

/-- A room's member set: the Go map `map[string]*interfaces.Connection`
(user id to connection), embedded as a key-unique association list. -/
abbrev Clients := List (String × ConnId)

/-- Go map read `clients[u]`: the connection registered for user `u`, if any. -/
def Clients.lookupUser (cs : Clients) (u : String) : Option ConnId :=
  (cs.find? (fun p => p.1 == u)).map (fun p => p.2)

/-- The registration step `if clients[message.UserID] == nil { clients[message.UserID] = connection }`:
insert the pair only when the key is absent. -/
def Clients.register (cs : Clients) (u : String) (c : ConnId) : Clients :=
  if (Clients.lookupUser cs u).isNone then cs ++ [(u, c)] else cs

/-- Go map `delete(clients, u)`. -/
def Clients.eraseUser (cs : Clients) (u : String) : Clients :=
  cs.filter (fun p => p.1 != u)

/-- One message forwarded to one room member by the relay loops
(`client.Send(message)` inside the `disconnect` and default cases). -/
structure Forward where
  user : String
  conn : ConnId
  msg : Message
deriving DecidableEq

/-- Result of processing one incoming message inside `wshandler`:
the updated member set, the messages forwarded to other members, and the
optional `session_joined` acknowledgement written back on the sender's own
connection (the `connect` case). -/
structure StepOut where
  clients : Clients
  forwards : List Forward
  ack : Option (ConnId × Message)
deriving DecidableEq

/-- One iteration of the `for` loop body of `wshandler`
(server/signalling-server/main.go) after a successful `ReadJSON`:
register the sender if absent, then dispatch on `message.Type`:

* `"connect"`: rewrite the type to `"session_joined"` and write it back on
  the sender's own connection; on write failure delete the sender;
* `"disconnect"`: forward the message to every member other than the sender,
  deleting members whose send fails, then delete the sender;
* any other type (offer / answer / candidate / ...): forward the message to
  every member other than the sender, deleting members whose send fails.
  The `To` field of the message is never consulted.

`broken` is the set of connection ids whose writes fail at this step.
`relayTargets` is the effect of the relay loop
`for user, client := range clients { if user != message.UserID { client.Send(message) } }`:
the members other than the sender whose send succeeds. -/
def relayTargets (cs : Clients) (u : String) (broken : List ConnId) : Clients :=
  cs.filter (fun p => p.1 != u && !broken.contains p.2)

/-- Effect on the member set of one relay loop (`disconnect` and default
cases): members other than the sender whose `Send` fails are deleted. -/
def keepAfterSend (cs : Clients) (u : String) (broken : List ConnId) : Clients :=
  cs.filter (fun p => p.1 == u || !broken.contains p.2)

/-- Dispatch on `message.Type` in the loop body of `wshandler`; see the
module comment of `relayTargets` for the loop effects. -/
def wsStep (cs : Clients) (conn : ConnId) (m : Message) (broken : List ConnId) : StepOut :=
  let cs1 := Clients.register cs m.userID conn
  if m.mtype = "connect" then
    if conn ∈ broken then
      { clients := Clients.eraseUser cs1 m.userID, forwards := [], ack := none }
    else
      { clients := cs1, forwards := [], ack := some (conn, { m with mtype := "session_joined" }) }
  else if m.mtype = "disconnect" then
    { clients := Clients.eraseUser (keepAfterSend cs1 m.userID broken) m.userID,
      forwards := (relayTargets cs1 m.userID broken).map
        (fun p => { user := p.1, conn := p.2, msg := m }),
      ack := none }
  else
    { clients := keepAfterSend cs1 m.userID broken,
      forwards := (relayTargets cs1 m.userID broken).map
        (fun p => { user := p.1, conn := p.2, msg := m }),
      ack := none }

/-- One read result of the handler's blocking `conn.ReadJSON(&message)`:
either a message (with the set of connections whose writes fail while it is
being processed), or a read error. -/
inductive ReadEvent where
  | msg (m : Message) (broken : List ConnId)
  | fail
deriving DecidableEq

/-- The read loop of `wshandler` for one connection, run over a list of read
results. On a read error the loop `break`s: the handler terminates (the
deferred `conn.Close()` runs) and the member set is returned as it stands —
no removal of the sender happens on this path. -/
def wsRun (cs : Clients) (conn : ConnId) : List ReadEvent → Clients
  | [] => cs
  | .fail :: _ => cs
  | .msg m broken :: rest => wsRun (wsStep cs conn m broken).clients conn rest

/-- The global room directory `var sockets = make(map[string]map[string]*interfaces.Connection)`:
socket path key to member set, embedded as a key-unique association list. -/
abbrev Directory := List (String × Clients)

/-- Go map read `sockets[socket]`. -/
def Directory.get : Directory → String → Option Clients
  | [], _ => none
  | p :: rest, k => if p.1 = k then some p.2 else Directory.get rest k

/-- Go map write `sockets[socket] = ...`: update in place or append. -/
def Directory.set : Directory → String → Clients → Directory
  | [], k, cs => [(k, cs)]
  | p :: rest, k, cs => if p.1 = k then (k, cs) :: rest else p :: Directory.set rest k cs

/-- One message arriving at the server: on which socket path (room key), on
which physical connection, the message itself, and the connections whose
writes fail while it is processed. -/
structure RelayEvent where
  socket : String
  conn : ConnId
  msg : Message
  broken : List ConnId
deriving DecidableEq

/-- One delivery performed by the server: the room key under which the
message was processed, the recipient's user id and connection, and the
message written to that connection. -/
structure Delivery where
  room : String
  user : String
  conn : ConnId
  msg : Message
deriving DecidableEq

/-- Directory-level processing of one arriving message: `wshandler` looks up
`sockets[socket]`, creating the room map on first use, and the loop body
mutates that shared map. Acknowledgements (`session_joined`) count as
deliveries to the sender's own connection. -/
def dirStep (d : Directory) (e : RelayEvent) : Directory × List Delivery :=
  let room := (d.get e.socket).getD []
  let out := wsStep room e.conn e.msg e.broken
  let ackDlv : List Delivery :=
    match out.ack with
    | some pr => [{ room := e.socket, user := e.msg.userID, conn := pr.1, msg := pr.2 }]
    | none => []
  (d.set e.socket out.clients,
    out.forwards.map (fun f => { room := e.socket, user := f.user, conn := f.conn, msg := f.msg })
      ++ ackDlv)

/-- Directory-level run over a trace of arriving messages, collecting every
delivery the server performs. -/
def dirRun : Directory → List RelayEvent → Directory × List Delivery
  | d, [] => (d, [])
  | d, e :: rest =>
    let s := dirStep d e
    let r := dirRun s.1 rest
    (r.1, s.2 ++ r.2)

/-- Reduction modulo the 32-bit word size, written out as the source's
machine words are 32-bit (`% 2^32`). -/
def w32 (n : Nat) : Nat := n % 4294967296

/-- Left rotation of a 32-bit word by `k` bits (for a word already `< 2^32`). -/
def rotl32 (x k : Nat) : Nat := (x % 2 ^ (32 - k)) * 2 ^ k + x / 2 ^ (32 - k)

/-- UTF-8 byte encoding of one character, as Go's `[]byte(str)` produces. -/
def utf8Bytes (c : Char) : List Nat :=
  let n := c.toNat
  if n < 128 then [n]
  else if n < 2048 then [192 + n / 64, 128 + n % 64]
  else if n < 65536 then [224 + n / 4096, 128 + (n / 64) % 64, 128 + n % 64]
  else [240 + n / 262144, 128 + (n / 4096) % 64, 128 + (n / 64) % 64, 128 + n % 64]

/-- UTF-8 bytes of a string (Go `[]byte(str)`). -/
def strBytes (s : String) : List Nat := (s.data.map utf8Bytes).flatten

/-- Big-endian bytes of a number, fixed width. -/
def beBytes : Nat → Nat → List Nat
  | 0, _ => []
  | w + 1, n => beBytes w (n / 256) ++ [n % 256]

/-- SHA-1 message padding: append `0x80`, zero bytes up to 56 mod 64, then the
bit length as 8 big-endian bytes. -/
def sha1Pad (bytes : List Nat) : List Nat :=
  let len := bytes.length
  bytes ++ [128] ++ List.replicate ((119 - len % 64) % 64) 0 ++ beBytes 8 (len * 8)

/-- Group bytes into big-endian 32-bit words. -/
def bytesToWords : List Nat → List Nat
  | a :: b :: c :: d :: rest => (a * 16777216 + b * 65536 + c * 256 + d) :: bytesToWords rest
  | _ => []

/-- Group words into 16-word blocks. -/
def wordBlocks : List Nat → List (List Nat)
  | w0 :: w1 :: w2 :: w3 :: w4 :: w5 :: w6 :: w7 ::
    w8 :: w9 :: w10 :: w11 :: w12 :: w13 :: w14 :: w15 :: rest =>
    [w0, w1, w2, w3, w4, w5, w6, w7, w8, w9, w10, w11, w12, w13, w14, w15] :: wordBlocks rest
  | _ => []

/-- Extend a 16-word block to the 80-word SHA-1 message schedule; the fuel
argument counts the remaining words to append. -/
def sha1Extend : List Nat → Nat → List Nat
  | ws, 0 => ws
  | ws, n + 1 =>
    let i := ws.length
    let newW := rotl32 (Nat.xor (Nat.xor (ws.getD (i - 3) 0) (ws.getD (i - 8) 0))
      (Nat.xor (ws.getD (i - 14) 0) (ws.getD (i - 16) 0))) 1
    sha1Extend (ws ++ [newW]) n

/-- SHA-1 five-word state. -/
structure Sha1State where
  a : Nat
  b : Nat
  c : Nat
  d : Nat
  e : Nat
deriving DecidableEq

/-- One of the 80 SHA-1 compression rounds. -/
def sha1Round (ws : List Nat) (st : Sha1State) (i : Nat) : Sha1State :=
  let fk :=
    if i < 20 then (Nat.lor (Nat.land st.b st.c) (Nat.land (4294967295 - st.b) st.d), 1518500249)
    else if i < 40 then (Nat.xor (Nat.xor st.b st.c) st.d, 1859775393)
    else if i < 60 then
      (Nat.lor (Nat.lor (Nat.land st.b st.c) (Nat.land st.b st.d)) (Nat.land st.c st.d), 2400959708)
    else (Nat.xor (Nat.xor st.b st.c) st.d, 3395469782)
  let temp := w32 (rotl32 st.a 5 + fk.1 + st.e + fk.2 + ws.getD i 0)
  { a := temp, b := st.a, c := rotl32 st.b 30, d := st.c, e := st.d }

/-- Process one 16-word block. -/
def sha1Block (st : Sha1State) (block : List Nat) : Sha1State :=
  let ws := sha1Extend block 64
  let r := (List.range 80).foldl (sha1Round ws) st
  { a := w32 (st.a + r.a), b := w32 (st.b + r.b), c := w32 (st.c + r.c),
    d := w32 (st.d + r.d), e := w32 (st.e + r.e) }

/-- The initial SHA-1 state. -/
def sha1Init : Sha1State :=
  { a := 1732584193, b := 4023233417, c := 2562383102, d := 271733878, e := 3285377520 }

/-- Lowercase hexadecimal digit. -/
def hexDigitChar (n : Nat) : Char :=
  if n < 10 then Char.ofNat (48 + n) else Char.ofNat (87 + n)

/-- Fixed-width big-endian hexadecimal digits of a number. -/
def hexChars : Nat → Nat → List Char
  | 0, _ => []
  | w + 1, n => hexChars w (n / 16) ++ [hexDigitChar (n % 16)]

/-- Hex encoding of a SHA-1 digest (Go `hex.EncodeToString(hash.Sum(nil))`). -/
def sha1Hex (s : String) : String :=
  let st := (wordBlocks (bytesToWords (sha1Pad (strBytes s)))).foldl sha1Block sha1Init
  ⟨hexChars 8 st.a ++ hexChars 8 st.b ++ hexChars 8 st.c ++ hexChars 8 st.d ++ hexChars 8 st.e⟩

/-- The token derivation of `socket.controllers.go`:
`hashSession(str)` computes the hex-encoded SHA-1 of `str`. -/
def hashSession (str : String) : String := sha1Hex str

/-- Session record, from `interfaces.Session` (fields `Host`, `Title`,
`Password`; the file defining the struct is absent from the sources, the
fields are those exercised by the controllers and tests). After
`CreateSession` runs, `password` holds the hash, never the clear text. -/
structure Session where
  host : String
  title : String
  password : String
deriving DecidableEq

/-- Socket record, from `interfaces.Socket`
(fields `SessionID`, `HashedURL`, `SocketURL`). -/
structure Socket where
  sessionID : String
  hashedURL : String
  socketURL : String
deriving DecidableEq

/-- The zero value a failed `result.Decode(&socket)` leaves behind. -/
def Socket.zero : Socket := { sessionID := "", hashedURL := "", socketURL := "" }

/-- The persistent store: the `sessions` and `sockets` Mongo collections of
database `vidchat`, embedded as lists in insertion order, plus a counter from
which store-assigned object ids are drawn. -/
structure DB where
  sessions : List (String × Session)
  sockets : List Socket
  nextId : Nat
deriving DecidableEq

/-- The empty store. -/
def DB.empty : DB := { sessions := [], sockets := [], nextId := 0 }

/-- Modelled from the spec: the `utils` package holding the Credential Store
(`HashPassword` / `ComparePasswords`) is referenced by the controllers but its
source is not under src/. Per the spec it "hashes and verifies room
passwords" and verification "verifies `password` against the stored hash",
succeeding exactly on a match; it is embedded as an injective tagging hash
whose verifier accepts exactly the hashed password. -/
def HashPassword (password : String) : String := "bcrypt$" ++ password

/-- Modelled from the spec: the Credential Store's verifier; see
`HashPassword`. `ComparePasswords(stored, clear)` holds when `clear` hashes
to `stored`. -/
def ComparePasswords (stored : String) (clear : String) : Bool :=
  stored == "bcrypt$" ++ clear

/-- Lowercase hex digit test (Go `encoding/hex` accepts 0-9, a-f, A-F). -/
def isHexDigitChar (c : Char) : Bool :=
  (48 ≤ c.toNat && c.toNat ≤ 57) || (97 ≤ c.toNat && c.toNat ≤ 102) ||
    (65 ≤ c.toNat && c.toNat ≤ 70)

/-- Success condition of `primitive.ObjectIDFromHex`: a 24-character hex
string. -/
def objectIDFromHexOk (s : String) : Bool :=
  s.length == 24 && s.data.all isHexDigitChar

/-- The store-assigned object id for the `n`-th insertion: 24 hex characters,
distinct for distinct `n`. -/
def idOf (n : Nat) : String := ⟨hexChars 24 n⟩

/-- Mongo `FindOne(ctx, bson.M{"hashedUrl": url})` on the `sockets`
collection: first stored socket whose hashed URL equals `url`. -/
def findSocket (db : DB) (url : String) : Option Socket :=
  db.sockets.find? (fun s => s.hashedURL == url)

/-- Mongo `FindOne(ctx, bson.M{"_id": objectID})` on the `sessions`
collection. -/
def findSessionById (db : DB) (id : String) : Option Session :=
  (db.sessions.find? (fun p => p.1 == id)).map (fun p => p.2)

/-- Body of one JSON response written by the controllers. -/
inductive RespBody where
  | errSocketNotFound
  | errSessionNotFound
  | errInvalidPassword
  | okJoin (title : String) (socketURL : String)
  | okCreated (socketURL : String)
  | okEmpty
deriving DecidableEq

/-- One HTTP response write (`ctx.JSON` / `ctx.Status`): status code and
body. -/
structure Resp where
  status : Nat
  body : RespBody
deriving DecidableEq

/-- Final step of `ConnectSession`: verify the supplied password against the
stored hash and answer with the session title and socket URL on success. -/
def checkPassword (session : Session) (socket : Socket) (input : Session) : List Resp :=
  if !ComparePasswords session.password input.password then
    [{ status := 400, body := .errInvalidPassword }]
  else
    [{ status := 200, body := .okJoin session.title socket.socketURL }]

/-- Continuation of `ConnectSession` after the socket lookup: parse the
socket's session id (`primitive.ObjectIDFromHex`), look the session up,
then verify the password (`checkPassword`). -/
def connectSessionRest (db : DB) (socket : Socket) (input : Session) : List Resp :=
  if !objectIDFromHexOk socket.sessionID then
    [{ status := 400, body := .errSessionNotFound }]
  else
    match findSessionById db socket.sessionID with
    | none => [{ status := 400, body := .errSessionNotFound }]
    | some session => checkPassword session socket input

/-- The handler `ConnectSession` of socket.controllers.go for a request with
a well-formed JSON body `input`: look the connect target `url` up in the
`sockets` collection. On a miss the handler writes the 400 socket-not-found
response but does NOT return, so it continues with the zero-valued socket
(whose empty session id then fails the object-id parse); the observable
output is the full list of response writes, in order. -/
def ConnectSession (db : DB) (url : String) (input : Session) : List Resp :=
  match findSocket db url with
  | none => { status := 400, body := .errSocketNotFound } :: connectSessionRest db Socket.zero input
  | some socket => connectSessionRest db socket input

/-- The probe handler `GetSession` of socket.controllers.go:
`ctx.Request.URL.Query()["url"][0]` indexes element 0 of the list of values
of the `url` query parameter, which panics (result `none`) when the
parameter is absent; otherwise 200 when a socket with that hashed URL is
stored and 400 when not. -/
def GetSession (db : DB) (urlQuery : List String) : Option Resp :=
  match urlQuery with
  | [] => none
  | url :: _ =>
    match findSocket db url with
    | none => some { status := 400, body := .errSocketNotFound }
    | some _ => some { status := 200, body := .okEmpty }

/-- The helper `CreateSocket` of socket.controllers.go: derive the discovery
handle from `host ++ title` and the connect socket URL from
`host ++ password` (the password field of the session record passed in has
already been replaced by its hash in `CreateSession`, but the URL is derived
from that stored field as the source does), insert the socket record, and
return the handle. -/
def CreateSocket (session : Session) (db : DB) (id : String) : DB × String :=
  let hashURL := hashSession (session.host ++ session.title)
  let socketURL := hashSession (session.host ++ session.password)
  let socket : Socket := { sessionID := id, hashedURL := hashURL, socketURL := socketURL }
  ({ db with sockets := db.sockets ++ [socket] }, hashURL)

/-- The handler `CreateSession` of the signalling-server controllers for a
request with well-formed body `input`: hash the password, insert the session
(receiving a store-assigned id), create the socket record, and answer with
the socket handle. -/
def CreateSession (db : DB) (input : Session) : DB × Resp :=
  let session : Session := { input with password := HashPassword input.password }
  let id := idOf db.nextId
  let db1 : DB :=
    { db with sessions := db.sessions ++ [(id, session)], nextId := db.nextId + 1 }
  let r := CreateSocket session db1 id
  (r.1, { status := 200, body := .okCreated r.2 })

/-- A sequence of create-session calls against the store. -/
def createRun (db : DB) (calls : List Session) : DB :=
  calls.foldl (fun d s => (CreateSession d s).1) db

/-- CreateSocket derives socket URLs from the session's *stored* password
field; note CreateSession stores the hash there, so the connect target is
derived from `host ++ HashPassword password`. -/
def connectTargetOf (input : Session) : String :=
  hashSession (input.host ++ HashPassword input.password)

/-- Resolution of a discovery RoomHandle to a Session: some stored socket
carries the handle and its session id resolves in the sessions collection. -/
def resolvesHandleTo (db : DB) (h : String) (sess : Session) : Prop :=
  ∃ socket ∈ db.sockets, socket.hashedURL = h ∧ findSessionById db socket.sessionID = some sess

/-- Resolution of a ConnectTarget to a RoomHandle: some stored socket carries
the target and the handle. -/
def targetResolvesTo (db : DB) (c : String) (h : String) : Prop :=
  ∃ socket ∈ db.sockets, socket.socketURL = c ∧ socket.hashedURL = h

/-- A join call succeeded when some 200 response was written. -/
def joinSucceeded (rs : List Resp) : Prop := ∃ r ∈ rs, r.status = 200

/-- Invariant used for room isolation: connection `c` appears in the member
set of no room other than `B`. -/
def connOnlyIn (d : Directory) (c : ConnId) (B : String) : Prop :=
  ∀ k cs, Directory.get d k = some cs → ∀ p ∈ cs, p.2 = c → k = B

/-- Concrete offer carrying an explicit recipient `to = "x"`. -/
def offerToX : Message :=
  { mtype := "offer", userID := "a", description := "sdp-offer", candidate := "", toUser := "x" }

/-- Concrete connect message from user `u`. -/
def connectMsg (u : String) : Message :=
  { mtype := "connect", userID := u, description := "", candidate := "", toUser := "" }

/-- Concrete disconnect message from user `u`. -/
def disconnectMsg (u : String) : Message :=
  { mtype := "disconnect", userID := u, description := "", candidate := "", toUser := "" }

/-- Concrete room with three registered members. -/
def roomABX : Clients := [("a", 0), ("b", 1), ("x", 2)]

/-- Concrete handler trace: one connect from "a", then a read failure. -/
def traceCrash : List ReadEvent := [.msg (connectMsg "a") [], .fail]

/-- Concrete server trace: "a" joins room "r" and then leaves it again. -/
def tracePrune : List RelayEvent :=
  [{ socket := "r", conn := 0, msg := connectMsg "a", broken := [] },
   { socket := "r", conn := 0, msg := disconnectMsg "a", broken := [] }]

/-- Concrete server trace over two rooms: "a" and "b" join room "A",
"c" joins room "B" on connection 1, then "a" sends an offer in room "A". -/
def traceIso : List RelayEvent :=
  [{ socket := "A", conn := 0, msg := connectMsg "a", broken := [] },
   { socket := "B", conn := 1, msg := connectMsg "c", broken := [] },
   { socket := "A", conn := 2, msg := connectMsg "b", broken := [] },
   { socket := "A", conn := 0, msg := offerToX, broken := [] }]

/-- Concrete stored session with password "p1". -/
def sessionDemo : Session := { host := "h", title := "Standup", password := HashPassword "p1" }

/-- Concrete stored socket record for `sessionDemo`. -/
def socketDemo : Socket :=
  { sessionID := "aaaaaaaaaaaaaaaaaaaaaaaa", hashedURL := "u1", socketURL := "s1" }

/-- Concrete store with one session (password "p1") and its socket record. -/
def dbDemo : DB :=
  { sessions := [("aaaaaaaaaaaaaaaaaaaaaaaa", sessionDemo)],
    sockets := [socketDemo],
    nextId := 1 }

/-- Join request body carrying password `p`. -/
def inputPw (p : String) : Session := { host := "", title := "", password := p }

/-- Store after two create-session calls with identical host and title. -/
def dbCollide : DB :=
  createRun DB.empty
    [{ host := "h", title := "T", password := "p1" },
     { host := "h", title := "T", password := "p2" }]

/-- The colliding discovery handle of the two `dbCollide` create calls. -/
def handleHT : String := hashSession ("h" ++ "T")

/-- First stored session of `dbCollide`. -/
def sessA : Session := { host := "h", title := "T", password := HashPassword "p1" }

/-- Second stored session of `dbCollide`. -/
def sessB : Session := { host := "h", title := "T", password := HashPassword "p2" }

/-- First stored socket record of `dbCollide`. -/
def sockA : Socket :=
  { sessionID := idOf 0, hashedURL := handleHT,
    socketURL := hashSession ("h" ++ HashPassword "p1") }

/-- Second stored socket record of `dbCollide`. -/
def sockB : Socket :=
  { sessionID := idOf 1, hashedURL := handleHT,
    socketURL := hashSession ("h" ++ HashPassword "p2") }

/-- Concrete store with two sessions whose handles and targets are pairwise
distinct. -/
def dbDistinct : DB :=
  { sessions := [("aaaaaaaaaaaaaaaaaaaaaaaa",
      { host := "h1", title := "T1", password := HashPassword "p1" }),
      ("bbbbbbbbbbbbbbbbbbbbbbbb",
      { host := "h2", title := "T2", password := HashPassword "p2" })],
    sockets := [{ sessionID := "aaaaaaaaaaaaaaaaaaaaaaaa", hashedURL := "u1", socketURL := "s1" },
      { sessionID := "bbbbbbbbbbbbbbbbbbbbbbbb", hashedURL := "u2", socketURL := "s2" }],
    nextId := 2 }

/-! ## Helper lemmas -/

theorem register_sub (cs : Clients) (u : String) (c : ConnId) :
    ∀ p ∈ Clients.register cs u c, p ∈ cs ∨ p = (u, c) := by
  intro p hp
  unfold Clients.register at hp
  split at hp
  · rcases List.mem_append.mp hp with h | h
    · exact Or.inl h
    · exact Or.inr (List.mem_singleton.mp h)
  · exact Or.inl hp

theorem register_mono (cs : Clients) (u : String) (c : ConnId) :
    ∀ p ∈ cs, p ∈ Clients.register cs u c := by
  intro p hp
  unfold Clients.register
  split
  · exact List.mem_append_left _ hp
  · exact hp

theorem wsStep_connect_ok (cs : Clients) (conn : ConnId) (m : Message) (broken : List ConnId)
    (hc : m.mtype = "connect") (hb : conn ∉ broken) :
    wsStep cs conn m broken =
      { clients := Clients.register cs m.userID conn, forwards := [],
        ack := some (conn, { m with mtype := "session_joined" }) } := by
  simp only [wsStep]
  rw [if_pos hc, if_neg hb]

theorem wsStep_connect_fail (cs : Clients) (conn : ConnId) (m : Message) (broken : List ConnId)
    (hc : m.mtype = "connect") (hb : conn ∈ broken) :
    wsStep cs conn m broken =
      { clients := Clients.eraseUser (Clients.register cs m.userID conn) m.userID,
        forwards := [], ack := none } := by
  simp only [wsStep]
  rw [if_pos hc, if_pos hb]

theorem wsStep_disconnect (cs : Clients) (conn : ConnId) (m : Message) (broken : List ConnId)
    (hc : m.mtype ≠ "connect") (hd : m.mtype = "disconnect") :
    wsStep cs conn m broken =
      { clients := Clients.eraseUser
          (keepAfterSend (Clients.register cs m.userID conn) m.userID broken) m.userID,
        forwards := (relayTargets (Clients.register cs m.userID conn) m.userID broken).map
          (fun p => { user := p.1, conn := p.2, msg := m }),
        ack := none } := by
  simp only [wsStep]
  rw [if_neg hc, if_pos hd]

theorem wsStep_default (cs : Clients) (conn : ConnId) (m : Message) (broken : List ConnId)
    (hc : m.mtype ≠ "connect") (hd : m.mtype ≠ "disconnect") :
    wsStep cs conn m broken =
      { clients := keepAfterSend (Clients.register cs m.userID conn) m.userID broken,
        forwards := (relayTargets (Clients.register cs m.userID conn) m.userID broken).map
          (fun p => { user := p.1, conn := p.2, msg := m }),
        ack := none } := by
  simp only [wsStep]
  rw [if_neg hc, if_neg hd]

theorem relayTargets_spec (cs : Clients) (u : String) (broken : List ConnId) :
    ∀ p ∈ relayTargets cs u broken,
      p.1 ≠ u ∧ broken.contains p.2 = false ∧ p ∈ cs := by
  intro p hp
  have hmem := List.mem_filter.mp hp
  have hcond := hmem.2
  simp only [Bool.and_eq_true, bne_iff_ne, Bool.not_eq_eq_eq_not, Bool.not_true] at hcond
  exact ⟨hcond.1, by simpa using hcond.2, hmem.1⟩

theorem relayTargets_mem (cs : Clients) (u : String) (broken : List ConnId) (p : String × ConnId)
    (hm : p ∈ cs) (hu : p.1 ≠ u) (hb : broken.contains p.2 = false) :
    p ∈ relayTargets cs u broken := by
  refine List.mem_filter.mpr ⟨hm, ?_⟩
  simp only [Bool.and_eq_true, bne_iff_ne, Bool.not_eq_eq_eq_not, Bool.not_true]
  exact ⟨hu, by simpa using hb⟩

theorem keepAfterSend_sub (cs : Clients) (u : String) (broken : List ConnId) :
    ∀ p ∈ keepAfterSend cs u broken, p ∈ cs := by
  intro p hp
  exact (List.mem_filter.mp hp).1

theorem eraseUser_sub (cs : Clients) (u : String) :
    ∀ p ∈ Clients.eraseUser cs u, p ∈ cs := by
  intro p hp
  exact (List.mem_filter.mp hp).1

/-- Every message forwarded by one `wshandler` loop iteration goes to a
member already present in the incoming member set, is the incoming message
itself, never targets the sender's user id, and never targets a broken
connection. -/
theorem wsStep_forwards_mem (cs : Clients) (conn : ConnId) (m : Message) (broken : List ConnId) :
    ∀ f ∈ (wsStep cs conn m broken).forwards,
      f.msg = m ∧ f.user ≠ m.userID ∧ broken.contains f.conn = false ∧ (f.user, f.conn) ∈ cs := by
  intro f hf
  have main : ∀ p ∈ relayTargets (Clients.register cs m.userID conn) m.userID broken,
      p.1 ≠ m.userID ∧ broken.contains p.2 = false ∧ p ∈ cs := by
    intro p hp
    obtain ⟨h1, h2, h3⟩ := relayTargets_spec _ _ _ p hp
    refine ⟨h1, h2, ?_⟩
    rcases register_sub cs m.userID conn p h3 with h | h
    · exact h
    · exact absurd (by rw [h]) h1
  by_cases hc : m.mtype = "connect"
  · by_cases hb : conn ∈ broken
    · rw [wsStep_connect_fail cs conn m broken hc hb] at hf
      cases hf
    · rw [wsStep_connect_ok cs conn m broken hc hb] at hf
      cases hf
  · by_cases hd : m.mtype = "disconnect"
    · rw [wsStep_disconnect cs conn m broken hc hd] at hf
      obtain ⟨p, hp, rfl⟩ := List.mem_map.mp hf
      obtain ⟨h1, h2, h3⟩ := main p hp
      exact ⟨rfl, h1, h2, h3⟩
    · rw [wsStep_default cs conn m broken hc hd] at hf
      obtain ⟨p, hp, rfl⟩ := List.mem_map.mp hf
      obtain ⟨h1, h2, h3⟩ := main p hp
      exact ⟨rfl, h1, h2, h3⟩

/-- Every member present after one `wshandler` loop iteration was already a
member or is the sender's registration pair. -/
theorem wsStep_clients_sub (cs : Clients) (conn : ConnId) (m : Message) (broken : List ConnId) :
    ∀ p ∈ (wsStep cs conn m broken).clients, p ∈ cs ∨ p = (m.userID, conn) := by
  intro p hp
  by_cases hc : m.mtype = "connect"
  · by_cases hb : conn ∈ broken
    · rw [wsStep_connect_fail cs conn m broken hc hb] at hp
      exact register_sub cs m.userID conn p (eraseUser_sub _ _ p hp)
    · rw [wsStep_connect_ok cs conn m broken hc hb] at hp
      exact register_sub cs m.userID conn p hp
  · by_cases hd : m.mtype = "disconnect"
    · rw [wsStep_disconnect cs conn m broken hc hd] at hp
      exact register_sub cs m.userID conn p
        (keepAfterSend_sub _ _ _ p (eraseUser_sub _ _ p hp))
    · rw [wsStep_default cs conn m broken hc hd] at hp
      exact register_sub cs m.userID conn p (keepAfterSend_sub _ _ _ p hp)

/-- A `session_joined` acknowledgement is always written on the event's own
connection. -/
theorem wsStep_ack_conn (cs : Clients) (conn : ConnId) (m : Message) (broken : List ConnId) :
    ∀ pr, (wsStep cs conn m broken).ack = some pr → pr.1 = conn := by
  intro pr hpr
  by_cases hc : m.mtype = "connect"
  · by_cases hb : conn ∈ broken
    · rw [wsStep_connect_fail cs conn m broken hc hb] at hpr
      cases hpr
    · rw [wsStep_connect_ok cs conn m broken hc hb] at hpr
      rw [Option.some_inj] at hpr
      exact congrArg Prod.fst hpr.symm
  · by_cases hd : m.mtype = "disconnect"
    · rw [wsStep_disconnect cs conn m broken hc hd] at hpr
      cases hpr
    · rw [wsStep_default cs conn m broken hc hd] at hpr
      cases hpr

/-! ## C1: targeted delivery -/

/-- Claim C1 counterexample: in a room with members "a", "b" and "x", the
offer from "a" carrying `to = "x"` is forwarded to member "b" as well, even
though "b" is not the designated recipient — the claim that only
participant X receives a message carrying `to = X` is false on the code. -/
theorem targeted_delivery_counterexample :
    offerToX.toUser = "x" ∧ offerToX.mtype = "offer" ∧
      ({ user := "b", conn := 1, msg := offerToX } : Forward)
        ∈ (wsStep roomABX 0 offerToX []).forwards ∧
      ("b" : String) ≠ "x" := by
  decide

/-- Claim C1 amended: the relay never consults the `To` field. For every
message whose type is neither `connect` nor `disconnect`, the forwarded
copies go exactly to every registered member other than the sender whose
connection write succeeds, regardless of the message's `to` value. -/
theorem relay_broadcasts_ignoring_to (cs : Clients) (conn : ConnId) (m : Message)
    (broken : List ConnId) (hc : m.mtype ≠ "connect") (hd : m.mtype ≠ "disconnect") :
    ∀ u c, ({ user := u, conn := c, msg := m } : Forward)
        ∈ (wsStep cs conn m broken).forwards ↔
      ((u, c) ∈ Clients.register cs m.userID conn ∧ u ≠ m.userID ∧
        broken.contains c = false) := by
  intro u c
  rw [wsStep_default cs conn m broken hc hd]
  simp only [List.mem_map]
  constructor
  · rintro ⟨p, hp, heq⟩
    obtain ⟨h1, h2, h3⟩ := relayTargets_spec _ _ _ p hp
    have hu : p.1 = u := congrArg Forward.user heq
    have hcn : p.2 = c := congrArg Forward.conn heq
    have hp2 : p = (u, c) := Prod.ext hu hcn
    rw [hu] at h1
    rw [hcn] at h2
    rw [hp2] at h3
    exact ⟨h3, h1, h2⟩
  · rintro ⟨hmem, hu, hbr⟩
    exact ⟨(u, c), relayTargets_mem _ _ _ (u, c) hmem hu hbr, rfl⟩

/-- Witness for the amended claim C1: in the concrete room, the offer from
"a" is forwarded to "b" even though `to = "x"`. -/
theorem relay_broadcasts_ignoring_to_witness :
    ({ user := "b", conn := 1, msg := offerToX } : Forward)
      ∈ (wsStep roomABX 0 offerToX []).forwards :=
  (relay_broadcasts_ignoring_to roomABX 0 offerToX [] (by decide) (by decide) "b" 1).mpr
    ⟨by decide, by decide, by decide⟩

/-! ## C2: no self-delivery -/

/-- Claim C2: for every incoming message of every type (connect, disconnect
and all relayed types alike) and every member set, no forwarded copy
produced by the handler targets the sender — the member whose user id equals
the message's `UserID`. (The `session_joined` acknowledgement of the
`connect` case is a direct reply on the sender's connection with a rewritten
type, not a forwarded copy; the relay loops themselves always skip the
sender.) -/
theorem no_self_delivery (cs : Clients) (conn : ConnId) (m : Message) (broken : List ConnId) :
    ∀ f ∈ (wsStep cs conn m broken).forwards, f.user ≠ m.userID := by
  intro f hf
  exact (wsStep_forwards_mem cs conn m broken f hf).2.1

/-- Witness for C2 at a concrete input: the forward of the offer to "b"
exists and indeed "b" is not the sender "a". -/
theorem no_self_delivery_witness : ("b" : String) ≠ "a" :=
  no_self_delivery roomABX 0 offerToX []
    { user := "b", conn := 1, msg := offerToX } (by decide)

/-! ## C3: crash removal -/

/-- Claim C3 counterexample: participant "a" joins (registering itself in
the member set) and then its connection read fails. The handler terminates,
but a subsequent membership probe still finds "a" registered — the claim
that a read failure removes the sender from the member set is false on the
code, which only breaks out of the loop. -/
theorem crash_removal_counterexample :
    wsRun [] 0 traceCrash = [("a", 0)] ∧
      Clients.lookupUser (wsRun [] 0 traceCrash) "a" = some 0 := by
  decide

/-- Claim C3 amended: on a read failure the per-connection handler
terminates, but the sender is NOT removed from the room's member set: the
member set is left exactly as it was, and any membership probe answers as
before; the stale entry is only deleted later, when some forwarded send to
it fails. -/
theorem crash_leaves_membership (cs : Clients) (conn : ConnId) (rest : List ReadEvent) :
    wsRun cs conn (ReadEvent.fail :: rest) = cs ∧
      ∀ u, (Clients.lookupUser cs u).isSome →
        (Clients.lookupUser (wsRun cs conn (ReadEvent.fail :: rest)) u).isSome := by
  exact ⟨rfl, fun _ h => h⟩

/-- Witness for the amended claim C3 at the concrete crash trace: the
member "a" registered before the read failure is still found afterwards. -/
theorem crash_leaves_membership_witness :
    (Clients.lookupUser (wsRun [("a", 0)] 0 [ReadEvent.fail]) "a").isSome :=
  (crash_leaves_membership [("a", 0)] 0 []).2 "a" (by decide)

/-! ## C4: empty-room pruning -/

/-- Claim C4 counterexample: participant "a" joins room "r" and then sends
`disconnect`, emptying the room. The room directory still carries the key
"r", now mapped to the empty member set — the claim that removing the last
participant deletes the room's entry (so that no key maps to an empty set)
is false on the code, which never deletes from the outer map. -/
theorem empty_room_pruning_counterexample :
    Directory.get (dirRun [] tracePrune).1 "r" = some [] := by
  decide

/-- Characterization of a directory write: reading key `k` after setting
key `k2` yields the written value when `k = k2` and is unchanged
otherwise. -/
theorem Directory.get_set (d : Directory) (k2 : String) (cs : Clients) (k : String) :
    Directory.get (Directory.set d k2 cs) k =
      if k = k2 then some cs else Directory.get d k := by
  induction d with
  | nil =>
    show (if k2 = k then some cs else none) = if k = k2 then some cs else none
    by_cases hk : k = k2
    · rw [if_pos hk, if_pos hk.symm]
    · rw [if_neg hk, if_neg (fun h => hk h.symm)]
  | cons p rest ih =>
    show Directory.get (if p.1 = k2 then (k2, cs) :: rest else p :: Directory.set rest k2 cs) k
        = if k = k2 then some cs else if p.1 = k then some p.2 else Directory.get rest k
    by_cases hp : p.1 = k2
    · rw [if_pos hp]
      show (if k2 = k then some cs else Directory.get rest k) = _
      by_cases hk : k = k2
      · rw [if_pos hk.symm, if_pos hk]
      · rw [if_neg (fun h => hk h.symm), if_neg hk,
          if_neg (fun h : p.1 = k => hk ((h.symm.trans hp)))]
    · rw [if_neg hp]
      show (if p.1 = k then some p.2 else Directory.get (Directory.set rest k2 cs) k) = _
      by_cases hpk : p.1 = k
      · have hk : k ≠ k2 := fun h => hp (hpk.trans h)
        rw [if_pos hpk, if_neg hk, if_pos hpk]
      · rw [if_neg hpk, ih]
        by_cases hk : k = k2
        · rw [if_pos hk, if_pos hk]
        · rw [if_neg hk, if_neg hk, if_neg hpk]

/-- Room keys present in the directory survive any processed event: the
code never deletes from the outer `sockets` map. -/
theorem dirStep_keeps_keys (d : Directory) (e : RelayEvent) (k : String) :
    (Directory.get d k).isSome → (Directory.get (dirStep d e).1 k).isSome := by
  intro h
  show (Directory.get (Directory.set d e.socket _) k).isSome
  rw [Directory.get_set]
  by_cases hk : k = e.socket
  · rw [if_pos hk]
    rfl
  · rw [if_neg hk]
    exact h

/-- Claim C4 amended: the directory never prunes: a room's key is never
removed by any sequence of processed events, and in particular after the
last participant leaves, the key remains, mapped to the empty member set
(the counterexample exhibits such a reachable state). -/
theorem empty_rooms_not_pruned (d : Directory) (trace : List RelayEvent) (k : String) :
    (Directory.get d k).isSome → (Directory.get (dirRun d trace).1 k).isSome := by
  induction trace generalizing d with
  | nil => exact fun h => h
  | cons e rest ih =>
    intro h
    exact ih (dirStep d e).1 (dirStep_keeps_keys d e k h)

/-- Witness for the amended claim C4: after the concrete join-then-leave
trace the key "r" is still present (mapped to the empty member set). -/
theorem empty_rooms_not_pruned_witness :
    (Directory.get (dirRun [("r", [("a", 0)])] [] ).1 "r").isSome ∧
      (Directory.get (dirRun [] tracePrune).1 "r").isSome := by
  constructor
  · exact empty_rooms_not_pruned [("r", [("a", 0)])] [] "r" (by decide)
  · decide

/-! ## C7: room isolation -/

/-- Every delivery produced while processing one event is tagged with that
event's room key, and targets either the event's own connection (the
acknowledgement) or the connection of a member already present in that
room's member set. -/
theorem dirStep_delivery_conn (d : Directory) (e : RelayEvent) :
    ∀ dlv ∈ (dirStep d e).2, dlv.room = e.socket ∧
      (dlv.conn = e.conn ∨
        ∃ p ∈ (Directory.get d e.socket).getD [], dlv.conn = p.2) := by
  intro dlv hdlv
  simp only [dirStep] at hdlv
  rcases List.mem_append.mp hdlv with h | h
  · obtain ⟨f, hf, rfl⟩ := List.mem_map.mp h
    obtain ⟨_, _, _, hmem⟩ := wsStep_forwards_mem _ _ _ _ f hf
    exact ⟨rfl, Or.inr ⟨(f.user, f.conn), hmem, rfl⟩⟩
  · cases hack : (wsStep ((Directory.get d e.socket).getD []) e.conn e.msg e.broken).ack with
    | none =>
      rw [hack] at h
      cases h
    | some pr =>
      rw [hack] at h
      have heq := List.mem_singleton.mp h
      have hc := wsStep_ack_conn _ _ _ _ pr hack
      constructor
      · rw [heq]
      · left
        rw [heq]
        exact hc

/-- Processing one event preserves the invariant that connection `c`
appears only in room `B`'s member set, provided the event itself uses `c`
only under key `B`. -/
theorem dirStep_connOnlyIn (d : Directory) (e : RelayEvent) (c : ConnId) (B : String)
    (hinv : connOnlyIn d c B) (he : e.conn = c → e.socket = B) :
    connOnlyIn (dirStep d e).1 c B := by
  intro k cs hget p hp hpc
  have hfst : (dirStep d e).1 =
      Directory.set d e.socket
        (wsStep ((Directory.get d e.socket).getD []) e.conn e.msg e.broken).clients := rfl
  rw [hfst, Directory.get_set] at hget
  by_cases hk : k = e.socket
  · rw [if_pos hk] at hget
    have hcs : cs = (wsStep ((Directory.get d e.socket).getD []) e.conn e.msg e.broken).clients :=
      (Option.some_inj.mp hget).symm
    rw [hcs] at hp
    rcases wsStep_clients_sub _ _ _ _ p hp with hmem | hreg
    · cases hroom : Directory.get d e.socket with
      | none =>
        rw [hroom] at hmem
        cases hmem
      | some room0 =>
        rw [hroom] at hmem
        rw [hk]
        exact hinv e.socket room0 hroom p (by simpa using hmem) hpc
    · rw [hk]
      refine he ?_
      rw [hreg] at hpc
      exact hpc
  · rw [if_neg hk] at hget
    exact hinv k cs hget p hp hpc

/-- Isolation over a trace, generalized over the starting directory. -/
theorem dirRun_isolation_aux (c : ConnId) (A B : String) (hAB : A ≠ B) :
    ∀ (trace : List RelayEvent) (d : Directory), connOnlyIn d c B →
      (∀ e ∈ trace, e.conn = c → e.socket = B) →
      ∀ dlv ∈ (dirRun d trace).2, dlv.room = A → dlv.conn ≠ c := by
  intro trace
  induction trace with
  | nil =>
    intro d _ _ dlv hdlv
    cases hdlv
  | cons e rest ih =>
    intro d hinv htrace dlv hdlv hroom hconn
    have hsplit : (dirRun d (e :: rest)).2 =
        (dirStep d e).2 ++ (dirRun (dirStep d e).1 rest).2 := rfl
    rw [hsplit] at hdlv
    rcases List.mem_append.mp hdlv with h | h
    · obtain ⟨hrm, hc2⟩ := dirStep_delivery_conn d e dlv h
      have hsockA : e.socket = A := by rw [← hrm, hroom]
      rcases hc2 with hec | ⟨p, hpmem, hpc⟩
      · have : e.socket = B := htrace e (List.mem_cons_self e rest) (by rw [← hec, hconn])
        exact hAB (hsockA.symm.trans this)
      · cases hget : Directory.get d e.socket with
        | none =>
          rw [hget] at hpmem
          cases hpmem
        | some room0 =>
          rw [hget] at hpmem
          have : e.socket = B :=
            hinv e.socket room0 hget p (by simpa using hpmem) (by rw [← hpc, hconn])
          exact hAB (hsockA.symm.trans this)
    · exact ih (dirStep d e).1 (dirStep_connOnlyIn d e c B hinv
        (fun hec => htrace e (List.mem_cons_self e rest) hec))
        (fun e2 he2 => htrace e2 (List.mem_cons_of_mem e he2)) dlv h hroom hconn

/-- Claim C7: room isolation. For any trace of admissions and messages over
the server and any connection `c` that is only ever used under room key `B`
(it is admitted under `B` and all its messages arrive there), no delivery
performed while processing an event of a different room `A` ever targets
`c`: messages sent in room `A` are never delivered to a participant
admitted under room `B`'s key, for every interleaving across the two
rooms. -/
theorem room_isolation (trace : List RelayEvent) (c : ConnId) (A B : String)
    (hAB : A ≠ B) (hc : ∀ e ∈ trace, e.conn = c → e.socket = B) :
    ∀ dlv ∈ (dirRun [] trace).2, dlv.room = A → dlv.conn ≠ c :=
  dirRun_isolation_aux c A B hAB trace []
    (fun _ _ hget => by cases hget) hc

/-- Witness for C7 on the concrete two-room trace: the offer relayed in
room "A" is delivered to connection 2 (member "b" of room "A"), which is
distinct from connection 1, admitted only under room "B". -/
theorem room_isolation_witness : (2 : ConnId) ≠ 1 :=
  room_isolation traceIso 1 "A" "B" (by decide) (by decide)
    { room := "A", user := "b", conn := 2, msg := offerToX } (by decide) rfl

/-! ## C5 and C6: join authorization and its error responses -/

theorem ConnectSession_some (db : DB) (url : String) (input : Session) (socket : Socket)
    (h : findSocket db url = some socket) :
    ConnectSession db url input = connectSessionRest db socket input := by
  unfold ConnectSession
  rw [h]

theorem ConnectSession_none (db : DB) (url : String) (input : Session)
    (h : findSocket db url = none) :
    ConnectSession db url input =
      { status := 400, body := .errSocketNotFound } :: connectSessionRest db Socket.zero input := by
  unfold ConnectSession
  rw [h]

theorem connectSessionRest_badid (db : DB) (socket : Socket) (input : Session)
    (h : objectIDFromHexOk socket.sessionID = false) :
    connectSessionRest db socket input = [{ status := 400, body := .errSessionNotFound }] := by
  unfold connectSessionRest
  rw [h]
  rfl

theorem connectSessionRest_nosess (db : DB) (socket : Socket) (input : Session)
    (hhex : objectIDFromHexOk socket.sessionID = true)
    (h : findSessionById db socket.sessionID = none) :
    connectSessionRest db socket input = [{ status := 400, body := .errSessionNotFound }] := by
  unfold connectSessionRest
  rw [hhex, h]
  rfl

theorem connectSessionRest_some (db : DB) (socket : Socket) (input : Session) (session : Session)
    (hhex : objectIDFromHexOk socket.sessionID = true)
    (hsess : findSessionById db socket.sessionID = some session) :
    connectSessionRest db socket input = checkPassword session socket input := by
  unfold connectSessionRest
  rw [hhex, hsess]
  rfl

theorem connectSessionRest_badpw (db : DB) (socket : Socket) (input : Session) (session : Session)
    (hhex : objectIDFromHexOk socket.sessionID = true)
    (hsess : findSessionById db socket.sessionID = some session)
    (hcmp : ComparePasswords session.password input.password = false) :
    connectSessionRest db socket input = [{ status := 400, body := .errInvalidPassword }] := by
  rw [connectSessionRest_some db socket input session hhex hsess]
  unfold checkPassword
  rw [hcmp]
  rfl

theorem connectSessionRest_ok (db : DB) (socket : Socket) (input : Session) (session : Session)
    (hhex : objectIDFromHexOk socket.sessionID = true)
    (hsess : findSessionById db socket.sessionID = some session)
    (hcmp : ComparePasswords session.password input.password = true) :
    connectSessionRest db socket input =
      [{ status := 200, body := .okJoin session.title socket.socketURL }] := by
  rw [connectSessionRest_some db socket input session hhex hsess]
  unfold checkPassword
  rw [hcmp]
  rfl

/-- Unknown connect target: the 400 socket-not-found write followed (because
the handler misses a `return`) by the 400 session-not-found write produced
from the zero-valued socket. -/
theorem ConnectSession_none_eq (db : DB) (url : String) (input : Session)
    (h : findSocket db url = none) :
    ConnectSession db url input =
      [{ status := 400, body := .errSocketNotFound },
       { status := 400, body := .errSessionNotFound }] := by
  rw [ConnectSession_none db url input h,
    connectSessionRest_badid db Socket.zero input (by decide)]

theorem not_succeeded_of_400 (rs : List Resp) (h : ∀ r ∈ rs, r.status = 400) :
    ¬ joinSucceeded rs := by
  rintro ⟨r, hr, h200⟩
  have h400 := h r hr
  rw [h400] at h200
  exact absurd h200 (by decide)

/-- Claim C5: join requires the correct password. The call succeeds — and
then returns exactly the stored session's title together with the connect
socket URL — if and only if a socket record is stored for the supplied
connect target, its session id parses and resolves to a stored session, and
the supplied password verifies against that session's stored password hash.
An unknown target produces only 400 responses beginning with the
socket-not-found error; a password mismatch on an existing target produces
exactly the 400 invalid-password error. -/
theorem connect_session_auth (db : DB) (url : String) (input : Session) :
    (joinSucceeded (ConnectSession db url input) ↔
      ∃ socket session, findSocket db url = some socket ∧
        objectIDFromHexOk socket.sessionID = true ∧
        findSessionById db socket.sessionID = some session ∧
        ComparePasswords session.password input.password = true ∧
        ConnectSession db url input =
          [{ status := 200, body := .okJoin session.title socket.socketURL }]) ∧
    (findSocket db url = none →
      ConnectSession db url input =
        [{ status := 400, body := .errSocketNotFound },
         { status := 400, body := .errSessionNotFound }]) ∧
    (∀ socket session, findSocket db url = some socket →
      objectIDFromHexOk socket.sessionID = true →
      findSessionById db socket.sessionID = some session →
      ComparePasswords session.password input.password = false →
      ConnectSession db url input = [{ status := 400, body := .errInvalidPassword }]) := by
  refine ⟨⟨?_, ?_⟩, fun h => ConnectSession_none_eq db url input h, ?_⟩
  · intro hs
    cases hf : findSocket db url with
    | none =>
      rw [ConnectSession_none_eq db url input hf] at hs
      exact absurd hs (not_succeeded_of_400 _ (by decide))
    | some socket =>
      rw [ConnectSession_some db url input socket hf] at hs
      cases hhex : objectIDFromHexOk socket.sessionID with
      | false =>
        rw [connectSessionRest_badid db socket input hhex] at hs
        exact absurd hs (not_succeeded_of_400 _ (by decide))
      | true =>
        cases hsess : findSessionById db socket.sessionID with
        | none =>
          rw [connectSessionRest_nosess db socket input hhex hsess] at hs
          exact absurd hs (not_succeeded_of_400 _ (by decide))
        | some session =>
          cases hcmp : ComparePasswords session.password input.password with
          | false =>
            rw [connectSessionRest_badpw db socket input session hhex hsess hcmp] at hs
            exact absurd hs (not_succeeded_of_400 _ (by decide))
          | true =>
            exact ⟨socket, session, rfl, hhex, hsess, hcmp,
              by rw [ConnectSession_some db url input socket hf,
                connectSessionRest_ok db socket input session hhex hsess hcmp]⟩
  · rintro ⟨socket, session, _, _, _, _, heq⟩
    rw [heq]
    exact ⟨{ status := 200, body := .okJoin session.title socket.socketURL },
      List.mem_singleton.mpr rfl, rfl⟩
  · intro socket session hf hhex hsess hcmp
    rw [ConnectSession_some db url input socket hf,
      connectSessionRest_badpw db socket input session hhex hsess hcmp]

/-- Witness for C5 on the concrete store: joining with the stored password
succeeds, an unknown target fails with the not-found writes, and a wrong
password fails with the invalid-password write. -/
theorem connect_session_auth_witness :
    joinSucceeded (ConnectSession dbDemo "u1" (inputPw "p1")) ∧
      ConnectSession dbDemo "nope" (inputPw "p1") =
        [{ status := 400, body := .errSocketNotFound },
         { status := 400, body := .errSessionNotFound }] ∧
      ConnectSession dbDemo "u1" (inputPw "wrong") =
        [{ status := 400, body := .errInvalidPassword }] :=
  ⟨(connect_session_auth dbDemo "u1" (inputPw "p1")).1.mpr
      ⟨socketDemo, sessionDemo, by decide, by decide, by decide, by decide, by decide⟩,
    (connect_session_auth dbDemo "nope" (inputPw "p1")).2.1 (by decide),
    (connect_session_auth dbDemo "u1" (inputPw "wrong")).2.2 socketDemo sessionDemo
      (by decide) (by decide) (by decide) (by decide)⟩

/-- Claim C6 counterexample: on the concrete store, the wire-form response
to a wrong password on the existing target "u1" differs from the response
to the unknown target "nope" — same 400 status, but different bodies — so
the two cases are distinguishable and the claim of identical responses is
false on the code. -/
theorem auth_notfound_distinguishable_counterexample :
    ConnectSession dbDemo "u1" (inputPw "wrong") =
      [{ status := 400, body := .errInvalidPassword }] ∧
    ConnectSession dbDemo "nope" (inputPw "wrong") =
      [{ status := 400, body := .errSocketNotFound },
       { status := 400, body := .errSessionNotFound }] ∧
    ConnectSession dbDemo "u1" (inputPw "wrong") ≠
      ConnectSession dbDemo "nope" (inputPw "wrong") := by
  decide

/-- Claim C6 amended: every response write in both the password-mismatch
case and the unknown-target case carries status 400, but the bodies differ
(one invalid-password write versus a socket-not-found write followed by a
session-not-found write), so the wire forms are NOT identical and a prober
can distinguish a bad password from a missing room. -/
theorem auth_notfound_same_status_distinct_body (db : DB) (url1 url2 : String)
    (input1 input2 : Session) (socket : Socket) (session : Session)
    (h1 : findSocket db url1 = some socket)
    (hhex : objectIDFromHexOk socket.sessionID = true)
    (h2 : findSessionById db socket.sessionID = some session)
    (h3 : ComparePasswords session.password input1.password = false)
    (h4 : findSocket db url2 = none) :
    (∀ r ∈ ConnectSession db url1 input1, r.status = 400) ∧
    (∀ r ∈ ConnectSession db url2 input2, r.status = 400) ∧
    ConnectSession db url1 input1 ≠ ConnectSession db url2 input2 := by
  rw [ConnectSession_some db url1 input1 socket h1,
    connectSessionRest_badpw db socket input1 session hhex h2 h3,
    ConnectSession_none_eq db url2 input2 h4]
  decide

/-- Witness for the amended claim C6 on the concrete store. -/
theorem auth_notfound_same_status_distinct_body_witness :
    (∀ r ∈ ConnectSession dbDemo "u1" (inputPw "bad"), r.status = 400) ∧
    (∀ r ∈ ConnectSession dbDemo "nope" (inputPw "bad"), r.status = 400) ∧
    ConnectSession dbDemo "u1" (inputPw "bad") ≠ ConnectSession dbDemo "nope" (inputPw "bad") :=
  auth_notfound_same_status_distinct_body dbDemo "u1" "nope" (inputPw "bad") (inputPw "bad")
    socketDemo sessionDemo (by decide) (by decide) (by decide) (by decide) (by decide)

/-! ## C8: handle-resolution uniqueness -/

theorem pairwise_ne_inj {α β : Type} (l : List α) (f : α → β)
    (h : (l.map f).Pairwise (fun a b => a ≠ b)) :
    ∀ a ∈ l, ∀ b ∈ l, f a = f b → a = b := by
  intro a ha b hb hfeq
  by_contra hne
  have hp : l.Pairwise (fun x y => f x ≠ f y) := List.pairwise_map.mp h
  have hsym : Symmetric (fun x y : α => f x ≠ f y) := fun x y hxy heq => hxy heq.symm
  exact (List.Pairwise.forall hsym hp ha hb hne) hfeq

theorem dbCollide_sockets : dbCollide.sockets = [sockA, sockB] := rfl

theorem dbCollide_find_a : findSessionById dbCollide sockA.sessionID = some sessA := by
  decide

theorem dbCollide_find_b : findSessionById dbCollide sockB.sessionID = some sessB := by
  decide

/-- Claim C8 counterexample: after two create-session calls with identical
host "h" and title "T" (and passwords "p1", "p2"), the shared RoomHandle
`hashSession("hT")` is stored on two socket records referencing two
distinct sessions, so it does not resolve to exactly one Session. -/
theorem handle_uniqueness_counterexample :
    resolvesHandleTo dbCollide handleHT sessA ∧
      resolvesHandleTo dbCollide handleHT sessB ∧
      sessA ≠ sessB ∧
      ¬ (∃! sess, resolvesHandleTo dbCollide handleHT sess) := by
  have h1 : resolvesHandleTo dbCollide handleHT sessA := by
    refine ⟨sockA, ?_, rfl, dbCollide_find_a⟩
    rw [dbCollide_sockets]
    exact List.mem_cons_self sockA [sockB]
  have h2 : resolvesHandleTo dbCollide handleHT sessB := by
    refine ⟨sockB, ?_, rfl, dbCollide_find_b⟩
    rw [dbCollide_sockets]
    exact List.mem_cons_of_mem sockA (List.mem_cons_self sockB [])
  have h3 : sessA ≠ sessB := by decide
  refine ⟨h1, h2, h3, ?_⟩
  rintro ⟨s, hs, huniq⟩
  exact h3 ((huniq sessA h1).trans (huniq sessB h2).symm)

/-- Claim C8 amended: uniqueness of resolution holds exactly in the absence
of derived-token collisions. If the stored discovery handles are pairwise
distinct and every socket's session id resolves, then every stored
RoomHandle resolves to exactly one Session; if the stored connect targets
are also pairwise distinct, every stored ConnectTarget resolves to exactly
one RoomHandle. Two create calls with identical host and title violate the
pairwise-distinctness premise and then a RoomHandle resolves to two
distinct Sessions (see the counterexample). -/
theorem handle_resolution_unique (db : DB)
    (hids : ∀ socket ∈ db.sockets, (findSessionById db socket.sessionID).isSome = true)
    (hh : (db.sockets.map Socket.hashedURL).Pairwise (fun a b => a ≠ b))
    (hs : (db.sockets.map Socket.socketURL).Pairwise (fun a b => a ≠ b)) :
    (∀ socket ∈ db.sockets, ∃! sess, resolvesHandleTo db socket.hashedURL sess) ∧
    (∀ socket ∈ db.sockets, ∃! h, targetResolvesTo db socket.socketURL h) := by
  constructor
  · intro socket hmem
    obtain ⟨sess, hsess⟩ := Option.isSome_iff_exists.mp (hids socket hmem)
    refine ⟨sess, ⟨socket, hmem, rfl, hsess⟩, ?_⟩
    rintro sess2 ⟨socket2, hmem2, hurl2, hsess2⟩
    have heq : socket2 = socket :=
      pairwise_ne_inj db.sockets Socket.hashedURL hh socket2 hmem2 socket hmem hurl2
    rw [heq] at hsess2
    exact Option.some_inj.mp (hsess2.symm.trans hsess)
  · intro socket hmem
    refine ⟨socket.hashedURL, ⟨socket, hmem, rfl, rfl⟩, ?_⟩
    rintro h2 ⟨socket2, hmem2, hsurl2, hhurl2⟩
    have heq : socket2 = socket :=
      pairwise_ne_inj db.sockets Socket.socketURL hs socket2 hmem2 socket hmem hsurl2
    rw [← hhurl2, heq]

/-- Witness for the amended claim C8 on the collision-free concrete store:
the stored handle "u1" resolves to exactly one session. -/
theorem handle_resolution_unique_witness :
    ∃! sess, resolvesHandleTo dbDistinct "u1" sess :=
  (handle_resolution_unique dbDistinct (by decide) (by decide) (by decide)).1
    { sessionID := "aaaaaaaaaaaaaaaaaaaaaaaa", hashedURL := "u1", socketURL := "s1" }
    (by decide)

/-! ## C10: probe-handle totality -/

theorem GetSession_cons (db : DB) (url : String) (rest : List String) :
    GetSession db (url :: rest) =
      match findSocket db url with
      | none => some { status := 400, body := RespBody.errSocketNotFound }
      | some _ => some { status := 200, body := RespBody.okEmpty } := rfl

/-- Claim C10: the probe handler `GetSession` is partial at its public
interface. When the `url` query parameter is absent it indexes element 0 of
an empty list of query values and panics, producing no HTTP response
(modelled as `none`); when the parameter is present it answers 200 exactly
when a socket record with that hashed URL is stored and 400 otherwise. -/
theorem get_session_probe (db : DB) (q : List String) :
    (q = [] → GetSession db q = none) ∧
    (∀ url rest, q = url :: rest →
      ((∃ s ∈ db.sockets, s.hashedURL = url) →
        GetSession db q = some { status := 200, body := .okEmpty }) ∧
      ((¬ ∃ s ∈ db.sockets, s.hashedURL = url) →
        GetSession db q = some { status := 400, body := .errSocketNotFound })) := by
  refine ⟨fun h => by rw [h]; rfl, ?_⟩
  intro url rest hq
  subst hq
  constructor
  · rintro ⟨s, hs, hurl⟩
    cases hf : findSocket db url with
    | none =>
      simp only [findSocket] at hf
      have hnone := List.find?_eq_none.mp hf s hs
      exact absurd (beq_iff_eq.mpr hurl) hnone
    | some s2 =>
      rw [GetSession_cons db url rest, hf]
  · intro hne
    cases hf : findSocket db url with
    | some s2 =>
      exfalso
      simp only [findSocket] at hf
      have hpred := List.find?_some hf
      have hmem := List.mem_of_find?_eq_some hf
      exact hne ⟨s2, hmem, beq_iff_eq.mp hpred⟩
    | none =>
      rw [GetSession_cons db url rest, hf]

/-- Witness for C10 on the concrete store: a missing query parameter
panics, the stored handle "u1" probes 200, an unknown handle probes 400. -/
theorem get_session_probe_witness :
    GetSession dbDemo [] = none ∧
      GetSession dbDemo ["u1"] = some { status := 200, body := RespBody.okEmpty } ∧
      GetSession dbDemo ["zz"] = some { status := 400, body := RespBody.errSocketNotFound } :=
  ⟨(get_session_probe dbDemo []).1 rfl,
    ((get_session_probe dbDemo ["u1"]).2 "u1" [] rfl).1 ⟨socketDemo, by decide, by decide⟩,
    ((get_session_probe dbDemo ["zz"]).2 "zz" [] rfl).2 (by decide)⟩

end VideoConf
